import Mathlib

/-!
Shallow embedding of the bot engine in src/lib/native-websocket.ts (class
BotService), restricted to the parts the verified properties are about:
outcome resolution, the martingale risk ladder, bid sizing and splitting,
the bid-sending guards and expire_at computation, the close_deal_batch
settlement handler with its dedupe set, the opened-event handler, the risk
rules (stop loss / stop profit) and the resume-state computation.

Modelling conventions:
* JS numbers that are used as integers (steps, refs, amounts after
  Math.round, timestamps) are Nat/Int; prices, balances, profits and
  percentages are Rat (exact arithmetic in place of IEEE doubles).
* A config field produced by Number(...) that may be NaN is an Option
  (none = non-finite).
* JS Set objects (pendingUUIDs, processedBatches) are insertion-ordered
  duplicate-free lists; Array.from(set).slice(0, n) + delete is List.drop n.
* External I/O (HTTP fetches, persistence, timers, the actual socket
  writes) is not state: the profit totals recomputed by
  refreshProfitFromApi are passed to the settlement handler as a parameter,
  and sendBid returns the list of frames it would write to the socket.
* Date.now() is passed in as an epoch-milliseconds parameter; the local
  minute/second field arithmetic of sendBid is modelled assuming a
  whole-minute UTC offset (true of every real time zone).
-/

namespace Bot

/-- JS Math.round on an exact rational: round half away from zero for
positive halves (Math.round rounds .5 up), i.e. floor(q + 1/2). -/
def jsRound (q : ℚ) : ℤ := ⌊q + 1 / 2⌋

/-- Trend of a bid ('call' | 'put'). -/
inductive Trend where
  | call
  | put
deriving DecidableEq, Repr

/-- Wallet / account type ('real' | 'demo'). -/
inductive Wallet where
  | real
  | demo
deriving DecidableEq, Repr

/-- The four strategy variants of TradeConfig.strategy. -/
inductive Strategy where
  | signal
  | fast
  | momentum
  | flash5st
deriving DecidableEq, Repr

/-- BotStatus lifecycle states. -/
inductive BotStatus where
  | idle
  | starting
  | running
  | stopped
  | error
deriving DecidableEq, Repr

/-- Result of resolveOutcome. -/
inductive Outcome where
  | win
  | loss
  | tie
deriving DecidableEq, Repr

/-- MIN_BID_BY_CURRENCY with the `?? MIN_BID_BY_CURRENCY.IDR` fallback for
unknown currency codes (values before the ×100 minor-unit conversion). -/
def minBidByCurrency (currency : String) : ℤ :=
  if currency = "IDR" then 14000
  else if currency = "USD" then 1
  else if currency = "EUR" then 1
  else 14000

/-- MAX_BID_BY_CURRENCY with the `?? MAX_BID_BY_CURRENCY.IDR` fallback. -/
def maxBidByCurrency (currency : String) : ℤ :=
  if currency = "IDR" then 74000000
  else if currency = "USD" then 5000
  else if currency = "EUR" then 4600
  else 74000000

/-- const MAX_K_STEP = 100, the hard ceiling on martingaleStep. -/
def MAX_K_STEP : ℕ := 100

/-- resolveOutcome(trend, openRate, closeRate): tie on equal rates, else a
call wins iff close > open and a put wins iff close < open. -/
def resolveOutcome (trend : Trend) (openRate closeRate : ℚ) : Outcome :=
  if closeRate = openRate then .tie
  else match trend with
    | .call => if closeRate > openRate then .win else .loss
    | .put => if closeRate < openRate then .win else .loss

/-- The while-loop body of splitBidAmounts, with explicit fuel (the JS loop
terminates because each emitted chunk is positive under the real bid
bounds; the fuel chosen by `splitBidAmounts` is large enough for every
such input, see `splitGo_spec`). -/
def splitGo (minBid maxBid : ℤ) : ℕ → ℤ → List ℤ
  | 0, _ => []
  | fuel + 1, remaining =>
    if remaining ≤ 0 then []
    else if remaining ≤ maxBid then [remaining]
    else
      let remainder := remaining - maxBid
      let next := if 0 < remainder ∧ remainder < minBid then remaining - minBid else maxBid
      next :: splitGo minBid maxBid fuel (remaining - next)

/-- splitBidAmounts(total, minBid, maxBid): greedy max-sized chunks, with
the final chunk shrunk so the remainder is not left below minBid. -/
def splitBidAmounts (total minBid maxBid : ℤ) : List ℤ :=
  if total ≤ maxBid then [total]
  else splitGo minBid maxBid (total.toNat + 1) total

/-- TradeConfig, restricted to the fields the engine core reads. The raw
config stores strings; every numeric field is read through Number(...), so
it is modelled as the conversion result (none = non-finite / absent). -/
structure TradeConfig where
  asset : String
  strategy : Strategy
  interval : Option ℤ
  walletType : Wallet
  bidAmountIdr : Option ℚ
  bidAmountUsd : Option ℚ
  bidAmountEur : Option ℚ
  bidAmount : Option ℚ
  autoSwitchDemo : Bool
  martingale : Option ℚ
  maxMartingale : Option ℤ
  resetMartingale : Option ℤ
  stopLoss : Option ℤ
  stopProfitAfter : Option ℚ
deriving DecidableEq, Repr

/-- A locally tracked in-flight position (type OpenedBid). -/
structure OpenedBid where
  assetRic : String
  closeAt : String
  openRate : ℚ
  trend : Trend
  uuid : Option String
  amount : Option ℚ
  payment : Option ℚ
  dealType : Wallet
deriving DecidableEq, Repr

/-- The mutable fields of the BotService singleton that the verified
properties touch. `tradeSocketOpen`/`streamSocketOpen` stand for
"the socket object exists and readyState === OPEN"; `joinRefBo` is the
`bo` entry of the joinRefs table. Timers, listeners and the raw socket
objects are external and not part of the state. -/
structure EngineState where
  status : BotStatus
  config : TradeConfig
  pendingUUIDs : List String
  openedBids : List OpenedBid
  processedBatches : List String
  martingaleStep : ℕ
  lossStreak : ℕ
  totalProfit : ℚ
  balanceReal : ℚ
  balanceDemo : ℚ
  userCurrency : String
  currentWalletType : Wallet
  forceDemo : Bool
  allowAutoSwitch : Bool
  nextRef : ℕ
  joinRefBo : Option ℕ
  lastBidStep : ℕ
  lastBidWasSwitchDemo : Bool
  cooldownActive : Bool
  cooldownCount : ℕ
  cooldownMax : ℕ
  shouldUseSignal : Bool
  repeatStep : ℕ
  lastSignalTrend : Option Trend
  lastFastBidTrend : Option Trend
  fastRepeatTrend : Option Trend
  tradeReady : Bool
  streamReady : Bool
  tradeConnected : Bool
  streamConnected : Bool
  tradeSocketOpen : Bool
  streamSocketOpen : Bool
  bidInFlightUntil : Option ℕ
  switchDemoActive : Bool
  switchDemoStep : Option ℕ
  switchDemoReturnWallet : Option Wallet
  disableRepeatAfterDemo : Bool
  skipStopLossOnce : Bool
  profitReal : ℚ
  profitDemo : ℚ
  lastBidAt : ℕ
  lastBidAmount : Option ℤ
  disconnecting : Bool
deriving DecidableEq, Repr

/-- stop() in the non-native branch: set status stopped, clear the
tracking sets, the dedupe set, the connection flags, and tear down both
sockets. (Timer cancellation and the close frames are external effects.) -/
def stopEngine (s : EngineState) : EngineState :=
  { s with
    status := .stopped
    pendingUUIDs := []
    openedBids := []
    processedBatches := []
    disconnecting := false
    tradeReady := false
    streamReady := false
    tradeConnected := false
    streamConnected := false
    tradeSocketOpen := false
    streamSocketOpen := false }

/-- getCurrentProfit(): profit of the demo wallet when forceDemo, else of
the configured-current wallet. -/
def getCurrentProfit (s : EngineState) : ℚ :=
  match (if s.forceDemo then Wallet.demo else s.currentWalletType) with
  | .demo => s.profitDemo
  | .real => s.profitReal

/-- shouldSwitchToDemo(): auto-switch enabled, on the real wallet, and not
already switching. -/
def shouldSwitchToDemo (s : EngineState) : Bool :=
  s.config.autoSwitchDemo && s.currentWalletType == Wallet.real && !s.switchDemoActive

/-- The stop-profit tail of applyRiskRules: when stopProfitAfter is a
finite positive number and the active wallet's realized profit reached
stopProfitAfter × 100, stop the engine. -/
def stopProfitCheck (s : EngineState) : EngineState :=
  match s.config.stopProfitAfter with
  | some p => if 0 < p ∧ getCurrentProfit s ≥ p * 100 then stopEngine s else s
  | none => s

/-- The switch-demo entry block of applyRiskRules (stop loss breached with
auto-switch available). -/
def enterSwitchDemo (s : EngineState) : EngineState :=
  { s with
    switchDemoReturnWallet := some .real
    currentWalletType := .demo
    forceDemo := true
    switchDemoActive := true
    switchDemoStep := some s.martingaleStep
    allowAutoSwitch := false
    lastBidWasSwitchDemo := true }

/-- The stop-loss trigger condition of applyRiskRules: not in switch-demo,
stopLoss finite and positive, and martingaleStep strictly above it. -/
def stopLossBreached (s : EngineState) : Bool :=
  !s.switchDemoActive &&
    (match s.config.stopLoss with
     | some l => decide (0 < l) && decide ((s.martingaleStep : ℤ) > l)
     | none => false)

/-- applyRiskRules(): a set skipStopLossOnce flag is consumed and skips the
whole stop-loss block; otherwise a breached stop loss either enters
switch-demo (and returns) or, with auto-switch disabled, stops the engine
(and returns); every non-returning path falls through to the stop-profit
check. -/
def applyRiskRules (s : EngineState) : EngineState :=
  if s.skipStopLossOnce then stopProfitCheck { s with skipStopLossOnce := false }
  else if stopLossBreached s then
    if shouldSwitchToDemo s && s.allowAutoSwitch then enterSwitchDemo s
    else if !s.config.autoSwitchDemo then stopEngine s
    else stopProfitCheck s
  else stopProfitCheck s

/-- The stop-profit rule fires on state s. -/
def stopProfitHit (s : EngineState) : Prop :=
  ∃ p : ℚ, s.config.stopProfitAfter = some p ∧ 0 < p ∧ getCurrentProfit s ≥ p * 100

/-- applyCooldown(): only the Momentum and Flash 5st strategies use the
cooldown; for them it is armed with count 1. -/
def applyCooldown (s : EngineState) : EngineState :=
  if s.config.strategy = .momentum ∨ s.config.strategy = .flash5st then
    { s with cooldownActive := true, cooldownCount := 1 }
  else s

/-- The non-switch-demo win branch of the settlement loop: reset the
ladder, require a fresh signal, re-enable auto-switch and repeat. -/
def winReset (s : EngineState) : EngineState :=
  applyCooldown { s with
    lossStreak := 0
    martingaleStep := 0
    repeatStep := 0
    shouldUseSignal := true
    allowAutoSwitch := true
    disableRepeatAfterDemo := false }

/-- The switch-demo win branch of the settlement loop: exit switch-demo,
restore the pre-switch wallet (?? 'real') and the snapshotted step
(?? current step), and arm disableRepeatAfterDemo / skipStopLossOnce. -/
def exitSwitchDemoOnWin (s : EngineState) : EngineState :=
  applyCooldown { s with
    switchDemoActive := false
    martingaleStep := s.switchDemoStep.getD s.martingaleStep
    switchDemoStep := none
    forceDemo := false
    currentWalletType := s.switchDemoReturnWallet.getD .real
    switchDemoReturnWallet := none
    allowAutoSwitch := true
    lastBidWasSwitchDemo := false
    repeatStep := 0
    disableRepeatAfterDemo := true
    skipStopLossOnce := true }

/-- The repeatStep component of a loss settlement: with a finite positive
maxMartingale, increment while strictly below it and wrap to 0 at the
cap; otherwise reset to 0. -/
def repeatStepUpdate (maxM : Option ℤ) (rs : ℕ) : ℕ :=
  match maxM with
  | some m => if 0 < m then (if (rs : ℤ) < m then rs + 1 else 0) else 0
  | none => 0

/-- The non-switch-demo loss branch of the settlement loop: bump
lossStreak, apply the resetMartingale policy to martingaleStep (0 ⇒ always
reset; positive and reached ⇒ full reset with cooldown; otherwise
increment), clamp to MAX_K_STEP, then the repeatStep policy
(maxMartingale cap / disableRepeatAfterDemo, the only writes of that
block) and the shouldUseSignal recomputation. -/
def lossBranch (s : EngineState) : EngineState :=
  let s1 := { s with lossStreak := s.lossStreak + 1 }
  let s2 :=
    match s1.config.resetMartingale with
    | some r =>
      if r = 0 then { s1 with martingaleStep := 0 }
      else if 0 < r ∧ (s1.martingaleStep : ℤ) ≥ r then
        applyCooldown { s1 with
          martingaleStep := 0
          lossStreak := 0
          repeatStep := 0
          shouldUseSignal := true }
      else { s1 with martingaleStep := s1.martingaleStep + 1 }
    | none => { s1 with martingaleStep := s1.martingaleStep + 1 }
  let s3 := { s2 with martingaleStep := min s2.martingaleStep MAX_K_STEP }
  let rs1 := repeatStepUpdate s3.config.maxMartingale s3.repeatStep
  let rs2 := if s3.disableRepeatAfterDemo then 0 else rs1
  { s3 with repeatStep := rs2, shouldUseSignal := rs2 == 0 }

/-- isDemoMode as computed per settled bid: forced demo, demo wallet,
switch-demo active, or repeat disabled after demo. -/
def isDemoModeAtSettle (s : EngineState) : Bool :=
  s.forceDemo || s.currentWalletType == Wallet.demo || s.switchDemoActive ||
    s.disableRepeatAfterDemo

/-- The Fast-strategy repeat-trend override update at settlement: a
non-demo win stores the settled bid's trend, anything else clears it. -/
def fastTrendUpdate (result : Outcome) (s : EngineState) (bid : OpenedBid) : EngineState :=
  if s.config.strategy = .fast then
    { s with fastRepeatTrend :=
        if !isDemoModeAtSettle s && result == Outcome.win then some bid.trend else none }
  else s

/-- One iteration of the settlement loop of handleCloseDealBatch for a
single matched bid: resolve the outcome, update the Fast repeat-trend
override, then the win/loss ladder update (a tie changes no ladder
state). The per-bid persistBotState write and the async Fast re-entry
are external effects. -/
def settleBid (endRate : ℚ) (s : EngineState) (bid : OpenedBid) : EngineState :=
  let s1 := fastTrendUpdate (resolveOutcome bid.trend bid.openRate endRate) s bid
  match resolveOutcome bid.trend bid.openRate endRate with
  | .win => if s1.switchDemoActive then exitSwitchDemoOnWin s1 else winReset s1
  | .loss => if s1.switchDemoActive then s1 else lossBranch s1
  | .tie => s1

/-- The martingaleStep component of a non-switch-demo loss settlement: the
resetMartingale policy followed by the MAX_K_STEP clamp. -/
def lossStepUpdate (reset : Option ℤ) (step : ℕ) : ℕ :=
  min
    (match reset with
     | some r => if r = 0 then 0 else if 0 < r ∧ (step : ℤ) ≥ r then 0 else step + 1
     | none => step + 1)
    MAX_K_STEP

/-- A tracked bid that settles as a loss against end rate 0 (a call opened
at rate 1). -/
def losingBid : OpenedBid :=
  { assetRic := "Z-CRY/IDX", closeAt := "t", openRate := 1, trend := .call,
    uuid := none, amount := none, payment := none, dealType := .demo }

/-- n consecutive loss settlements applied to a state. -/
def settleLosses (n : ℕ) (s : EngineState) : EngineState :=
  (fun t => settleBid 0 t losingBid)^[n] s

/-- The fields of a close_deal_batch payload the handler reads; the
optional fields model the `payload?.x ?? ...` chains and the rates are
the Number(...) results. -/
structure BatchPayload where
  ric : Option String
  assetRic : Option String
  finishedAt : Option String
  endRate : Option ℚ
  closeRate : Option ℚ
deriving DecidableEq, Repr

/-- String(payload?.ric ?? payload?.asset_ric ?? ''). -/
def batchRic (p : BatchPayload) : String := p.ric.getD (p.assetRic.getD "")

/-- String(payload?.finished_at ?? ''). -/
def batchFinishedAt (p : BatchPayload) : String := p.finishedAt.getD ""

/-- Number(payload?.end_rate ?? payload?.close_rate ?? 0). -/
def batchEndRate (p : BatchPayload) : ℚ := p.endRate.getD (p.closeRate.getD 0)

/-- The dedupe key `${ric}:${finishedAt}` of a batch. -/
def batchKey (p : BatchPayload) : String := batchRic p ++ ":" ++ batchFinishedAt p

/-- A tracked bid matches a batch when asset ric and close timestamp both
agree. -/
def bidMatches (ric finishedAt : String) (bid : OpenedBid) : Bool :=
  bid.assetRic == ric && bid.closeAt == finishedAt

/-- Insertion of a fresh key into the processedBatches dedupe set with the
bounded-size eviction: past 100 entries, the oldest 50 are evicted. -/
def recordBatchKey (batches : List String) (key : String) : List String :=
  let grown := batches ++ [key]
  if 100 < grown.length then grown.drop 50 else grown

/-- handleCloseDealBatch(payload): validate ric/finished_at, dedupe on the
(ric, finished_at) key, settle every tracked bid matching the batch, store
the profit totals recomputed by refreshProfitFromApi (passed in as
`profits` = (demoTotal, realTotal)), and re-evaluate the risk rules. The
invalid, dedupe-hit and no-matching-bid paths return before the profit
refresh and the risk rules. -/
def handleCloseDealBatch (profits : ℚ × ℚ) (s : EngineState) (p : BatchPayload) :
    EngineState :=
  if batchRic p = "" ∨ batchFinishedAt p = "" then s
  else if batchKey p ∈ s.processedBatches then s
  else
    let s1 := { s with processedBatches := recordBatchKey s.processedBatches (batchKey p) }
    let matching := s1.openedBids.filter (bidMatches (batchRic p) (batchFinishedAt p))
    if matching = [] then s1
    else
      let s2 := { s1 with openedBids :=
        s1.openedBids.filter (fun b => !bidMatches (batchRic p) (batchFinishedAt p) b) }
      let s3 := matching.foldl (settleBid (batchEndRate p)) s2
      let s4 := { s3 with
        profitDemo := profits.1
        profitReal := profits.2
        totalProfit := profits.1 + profits.2 }
      applyRiskRules s4

/-- A sequence of close_deal_batch events, each paired with the profit
totals its refresh would fetch. -/
def runBatches (s : EngineState) (batches : List ((ℚ × ℚ) × BatchPayload)) : EngineState :=
  batches.foldl (fun t x => handleCloseDealBatch x.1 t x.2) s

/-- A neutral configuration used as the base of the concrete witness and
counterexample fixtures. -/
def baseConfig : TradeConfig :=
  { asset := "Z-CRY/IDX"
    strategy := .signal
    interval := some 1
    walletType := .demo
    bidAmountIdr := some 14000
    bidAmountUsd := some 1
    bidAmountEur := some 1
    bidAmount := none
    autoSwitchDemo := true
    martingale := some 130
    maxMartingale := some 1
    resetMartingale := some 2
    stopLoss := some 2
    stopProfitAfter := none }

/-- A freshly started, running engine state used as the base of the
concrete witness and counterexample fixtures. -/
def baseState : EngineState :=
  { status := .running
    config := baseConfig
    pendingUUIDs := []
    openedBids := []
    processedBatches := []
    martingaleStep := 0
    lossStreak := 0
    totalProfit := 0
    balanceReal := 0
    balanceDemo := 0
    userCurrency := "IDR"
    currentWalletType := .demo
    forceDemo := false
    allowAutoSwitch := true
    nextRef := 1
    joinRefBo := none
    lastBidStep := 0
    lastBidWasSwitchDemo := false
    cooldownActive := false
    cooldownCount := 0
    cooldownMax := 5
    shouldUseSignal := true
    repeatStep := 0
    lastSignalTrend := none
    lastFastBidTrend := none
    fastRepeatTrend := none
    tradeReady := true
    streamReady := true
    tradeConnected := true
    streamConnected := true
    tradeSocketOpen := true
    streamSocketOpen := true
    bidInFlightUntil := none
    switchDemoActive := false
    switchDemoStep := none
    switchDemoReturnWallet := none
    disableRepeatAfterDemo := false
    skipStopLossOnce := false
    profitReal := 0
    profitDemo := 0
    lastBidAt := 0
    lastBidAmount := none
    disconnecting := false }

/-- String.prototype.toUpperCase for the ASCII currency codes the engine
compares (Lean's String.toUpper does not reduce in the kernel). -/
def jsToUpper (str : String) : String := ⟨str.data.map Char.toUpper⟩

/-- getBidAmountForCurrency(): the per-currency configured amount with
the `?? config.bidAmount` fallback. -/
def getBidAmountForCurrency (cfg : TradeConfig) (userCurrency : String) : Option ℚ :=
  let currency := jsToUpper userCurrency
  if currency = "USD" then cfg.bidAmountUsd.orElse (fun _ => cfg.bidAmount)
  else if currency = "EUR" then cfg.bidAmountEur.orElse (fun _ => cfg.bidAmount)
  else cfg.bidAmountIdr.orElse (fun _ => cfg.bidAmount)

/-- The compounding loop of calculateBidAmounts: amount and running total
both start at round(base); each of the `step` iterations sets
amount := round(total · rate) and total += amount; the result is the last
amount. -/
def compoundedAmount (base rate : ℚ) (step : ℕ) : ℤ :=
  ((fun p : ℤ × ℤ =>
      (jsRound ((p.2 : ℚ) * rate), p.2 + jsRound ((p.2 : ℚ) * rate)))^[step]
    (jsRound base, jsRound base)).1

/-- The bid amount in minor units as computed by calculateBidAmounts
before validation: the effective step (0 while in switch-demo, clamped by
MAX_K_STEP and by the resetMartingale policy), compounded from the
per-currency base at rate percent/100 (or 1), then ×100 and rounded. -/
def rawBidAmount (s : EngineState) : ℤ :=
  let base := (getBidAmountForCurrency s.config s.userCurrency).getD 0
  let percent := s.config.martingale.getD 0
  let step0 := if s.switchDemoActive then 0 else s.martingaleStep
  let step1 := min step0 MAX_K_STEP
  let step2 :=
    match s.config.resetMartingale with
    | some r => if r = 0 then 0 else if 0 < r then min step1 r.toNat else step1
    | none => step1
  let rate := if 0 < percent then percent / 100 else 1
  jsRound ((compoundedAmount base rate step2 : ℚ) * 100)

/-- The balance consulted by the insufficient-funds guard: the demo
balance when the bid would be placed on the demo wallet, else the real
balance. -/
def availableBalance (s : EngineState) : ℚ :=
  if (if s.forceDemo then Wallet.demo else s.currentWalletType) = Wallet.demo then
    s.balanceDemo
  else s.balanceReal

/-- calculateBidAmounts(): validate the raw amount against the
per-currency bounds (×100): non-positive or below minimum ⇒ no bids;
above maximum ⇒ split (returning before the balance check); otherwise the
insufficient-funds guard may stop the engine; else a single amount. -/
def calculateBidAmounts (s : EngineState) : List ℤ × EngineState :=
  let currency := jsToUpper s.userCurrency
  let minBid := minBidByCurrency currency * 100
  let maxBid := maxBidByCurrency currency * 100
  let rawAmount := rawBidAmount s
  if rawAmount ≤ 0 then ([], s)
  else if rawAmount < minBid then ([], s)
  else if rawAmount > maxBid then (splitBidAmounts rawAmount minBid maxBid, s)
  else if 0 < availableBalance s ∧ (rawAmount : ℚ) > availableBalance s then
    ([], stopEngine s)
  else ([rawAmount], s)

/-- A bid-create frame as written to the socket: the payload fields of
the `{topic:"bo", event:"create"}` message plus the refs the sender
assigns. -/
structure BidFrame where
  createdAt : ℕ
  expireAt : ℕ
  ric : String
  dealType : Wallet
  optionType : String
  trend : Trend
  amount : ℤ
  ref : ℕ
  joinRef : ℕ
deriving DecidableEq, Repr

/-- forEach with the element index, used for the amounts loop of
sendBid. -/
def mapIdxFrom {α β : Type} (g : ℕ → α → β) : ℕ → List α → List β
  | _, [] => []
  | i, a :: l => g i a :: mapIdxFrom g (i + 1) l

/-- expire_at as sendBid computes it: max(1, interval) minutes added to
the current minute field, plus one extra minute when the current second
exceeds 30, seconds and milliseconds zeroed, in epoch seconds. (The
setMinutes/setSeconds local-field arithmetic equals this epoch-minute
arithmetic for any whole-minute UTC offset.) -/
def codeExpireAt (nowMs : ℕ) (intervalMinutes : ℕ) : ℕ :=
  (nowMs / 60000 + intervalMinutes + (if 30 < nowMs / 1000 % 60 then 1 else 0)) * 60

/-- Math.max(1, Number(config.interval)) as a minute count; a non-finite
interval is modelled as 1 (the real code would emit an invalid
timestamp there). -/
def intervalMinutesOf (cfg : TradeConfig) : ℕ := (max 1 (cfg.interval.getD 1)).toNat

/-- Modelled from the spec's words, for comparison with codeExpireAt (this
is the one definition not taken from the source): expire_at as "the
current time rounded up to the next interval-minute boundary, seconds
zeroed, plus an extra minute when the current second exceeds 30". -/
def spec_expireAt (nowMs : ℕ) (intervalMinutes : ℕ) : ℕ :=
  ((nowMs / 60000 / intervalMinutes + 1) * intervalMinutes +
    (if 30 < nowMs / 1000 % 60 then 1 else 0)) * 60

/-- The per-frame construction of the amounts.forEach loop in sendBid:
ref is this.nextRef++ (so nextRef + i for the i-th frame), join_ref is
joinRefs.bo ?? ref, created_at is staggered by 500 ms per frame. -/
def mkBidFrame (s : EngineState) (trendToSend : Trend) (index : ℕ) (nowMs expireAt : ℕ)
    (i : ℕ) (amount : ℤ) : BidFrame :=
  { createdAt := nowMs + (index + i) * 500
    expireAt := expireAt
    ric := s.config.asset
    dealType := if s.forceDemo then .demo else s.currentWalletType
    optionType := if s.config.strategy = .flash5st then "blitz" else "turbo"
    trend := trendToSend
    amount := amount
    ref := s.nextRef + i
    joinRef := s.joinRefBo.getD (s.nextRef + i) }

/-- The interval guard of sendBid: non-Signal strategies without the
bypass flag skip the bid when less than minIntervalMs − 250 has passed
since the last bid (5 s for Flash 5st, max(1, interval) minutes
otherwise; a non-finite interval makes the NaN comparison false). -/
def intervalGuardTrips (s : EngineState) (bypassInterval : Bool) (nowMs : ℕ) : Bool :=
  !(s.config.strategy == Strategy.signal) && !bypassInterval &&
    (if s.config.strategy == Strategy.flash5st then
      decide ((nowMs : ℤ) - s.lastBidAt < 5000 - 250)
    else
      match s.config.interval with
      | some i => decide ((nowMs : ℤ) - s.lastBidAt < max 1 i * 60000 - 250)
      | none => false)

/-- The bid-in-flight guard: bidInFlightUntil is set and still in the
future. -/
def inFlightGuard (s : EngineState) (nowMs : ℕ) : Bool :=
  match s.bidInFlightUntil with
  | some t => decide (nowMs < t)
  | none => false

/-- The repeat-trend selection of sendBid: the trend actually sent plus
the lastSignalTrend / lastFastBidTrend updates (fastRepeatTrend takes
priority for Fast outside demo mode, then the generic
repeatStep/lastSignalTrend override). -/
def selectTrend (s : EngineState) (trend : Trend) : Trend × EngineState :=
  let canRepeat :=
    (match s.config.maxMartingale with
     | some m => decide (0 < m)
     | none => false) && decide (0 < s.repeatStep)
  let isDemoMode :=
    s.forceDemo || s.currentWalletType == Wallet.demo || s.switchDemoActive ||
      s.disableRepeatAfterDemo
  if s.config.strategy == Strategy.fast then
    let pair :=
      if !isDemoMode && s.fastRepeatTrend.isSome then
        (s.fastRepeatTrend.getD trend, { s with lastSignalTrend := s.fastRepeatTrend })
      else if canRepeat && !isDemoMode && s.lastSignalTrend.isSome then
        (s.lastSignalTrend.getD trend, s)
      else (trend, { s with lastSignalTrend := some trend })
    (pair.1, { pair.2 with lastFastBidTrend := some pair.1 })
  else if canRepeat && s.lastSignalTrend.isSome then
    (s.lastSignalTrend.getD trend, s)
  else (trend, { s with lastSignalTrend := some trend })

/-- The tail of sendBid past all guards: trend selection, amount
computation (which may stop the engine on insufficient funds), expire_at,
the frame list, and the in-flight / last-bid bookkeeping. -/
def sendBidCore (s : EngineState) (trend : Trend) (index : ℕ) (nowMs : ℕ) :
    EngineState × List BidFrame :=
  let sel := selectTrend s trend
  let amts := calculateBidAmounts sel.2
  if amts.1 = [] then (amts.2, [])
  else
    let s4 := { amts.2 with lastBidAt := nowMs }
    let expireAt := codeExpireAt nowMs (intervalMinutesOf s4.config)
    let frames := mapIdxFrom (mkBidFrame s4 sel.1 index nowMs expireAt) 0 amts.1
    let bidCooldownMs := if s4.config.strategy == Strategy.flash5st then 5000 else 10000
    ({ s4 with
        nextRef := s4.nextRef + amts.1.length
        lastBidAmount := amts.1.head?
        bidInFlightUntil := some (nowMs + bidCooldownMs)
        lastBidStep := s4.martingaleStep
        lastBidWasSwitchDemo := s4.forceDemo },
      frames)

/-- sendBid(trend, index, options): the guard chain (status, interval,
bid-in-flight, open-position/pending-ack, channel readiness, socket
state, cooldown accounting) followed by sendBidCore. Returns the updated
state and the frames written to the socket; every guarded return sends
nothing. Both Date.now() reads are modelled as the one nowMs instant. -/
def sendBid (s : EngineState) (trend : Trend) (index : ℕ) (bypassInterval : Bool)
    (nowMs : ℕ) : EngineState × List BidFrame :=
  if !(s.status == BotStatus.running) then (s, [])
  else if intervalGuardTrips s bypassInterval nowMs then (s, [])
  else if inFlightGuard s nowMs then (s, [])
  else if !s.openedBids.isEmpty || !s.pendingUUIDs.isEmpty then (s, [])
  else if !s.tradeReady || !s.streamReady then (s, [])
  else if !s.tradeSocketOpen then (s, [])
  else if s.cooldownActive then
    let s1 := { s with cooldownCount := s.cooldownCount + 1 }
    if s1.cooldownCount ≤ s1.cooldownMax then (s1, [])
    else sendBidCore { s1 with cooldownActive := false, cooldownCount := 0 } trend index nowMs
  else sendBidCore s trend index nowMs

/-- C4 fixture: a running Signal engine with a 5-minute interval and the
IDR base bid. -/
def c4State : EngineState :=
  { baseState with config := { baseConfig with interval := some 5 } }

/-- C3 fixture: USD account with a 6000-USD configured bid (600,000 minor
units, above the 500,000 USD maximum, so the bid must be split) and a
known positive real-wallet balance of 100 minor units — far below the
computed amount. -/
def c3State : EngineState :=
  { baseState with
    userCurrency := "USD"
    currentWalletType := .real
    balanceReal := 100
    config := { baseConfig with bidAmountUsd := some 6000 } }

/-- C6 fixture: a pending bid acknowledgement UUID is outstanding. -/
def c6State : EngineState :=
  { baseState with pendingUUIDs := ["b7f1"] }

/-- Witness fixture for the amended insufficient-funds guard: a 100-USD
bid (10,000 minor units, within bounds) against a known real-wallet
balance of 50. -/
def c3GuardState : EngineState :=
  { baseState with
    userCurrency := "USD"
    currentWalletType := .real
    balanceReal := 50
    config := { baseConfig with bidAmountUsd := some 100 } }

/-- The single frame sendBid emits from the C4 fixture at t = 430000 ms
(7 min 10 s): base IDR bid 1,400,000 minor units, expire_at (7+5)·60. -/
def c4Frame : BidFrame :=
  { createdAt := 430000
    expireAt := 720
    ric := "Z-CRY/IDX"
    dealType := .demo
    optionType := "turbo"
    trend := .call
    amount := 1400000
    ref := 1
    joinRef := 1 }

/-- Witness fixture for the skip-stop-loss property: flag set, stop loss
2 already breached at step 5, real wallet, auto-switch available. -/
def c8State : EngineState :=
  { baseState with
    skipStopLossOnce := true
    martingaleStep := 5
    currentWalletType := .real }

/-- A close_deal_batch payload for asset "A" at timestamp "T" closing at
rate 0. -/
def c5Batch : BatchPayload :=
  { ric := some "A", assetRic := none, finishedAt := some "T", endRate := some 0,
    closeRate := none }

/-- A tracked call opened at rate 1 on "A"/"T" (loses against end rate 0). -/
def c5Bid : OpenedBid :=
  { assetRic := "A", closeAt := "T", openRate := 1, trend := .call, uuid := none,
    amount := none, payment := none, dealType := .real }

/-- Counterexample fixture: the bid is tracked at step 5 with stop loss 1
and auto-switch disabled, so settling the losing batch pushes the step to
6 and the risk rules stop the engine (clearing the dedupe set). -/
def c5State : EngineState :=
  { baseState with
    openedBids := [c5Bid]
    martingaleStep := 5
    currentWalletType := .real
    config := { baseConfig with
      stopLoss := some 1
      autoSwitchDemo := false
      resetMartingale := none
      maxMartingale := none } }

/-- Witness fixture for the amended dedupe claim: same tracked bid but no
stop rule fires when the batch settles. -/
def c5WitnessState : EngineState :=
  { baseState with openedBids := [c5Bid], currentWalletType := .real }

/-- A close_deal_batch payload for asset "B" at timestamp "U", matching no
tracked bid of the fixtures. -/
def c9Batch : BatchPayload :=
  { ric := some "B", assetRic := none, finishedAt := some "U", endRate := some 3,
    closeRate := none }

/-- String.prototype.toLowerCase for the ASCII tokens the opened-event
handler compares. -/
def jsToLower (str : String) : String := ⟨str.data.map Char.toLower⟩

/-- The payload fields of an "opened" event the handler reads; the
optional fields model the `item.x ?? ...` chains (openRate stands for
`open_rate ?? openRate`, a Number(...) result). -/
structure OpenedPayload where
  uuid : Option String
  assetRic : Option String
  ric : Option String
  closeQuoteCreatedAt : Option String
  finishedAt : Option String
  openRate : Option ℚ
  trend : Option String
  amount : Option ℚ
  payment : Option ℚ
  dealType : Option String
deriving DecidableEq, Repr

/-- The OpenedBid record built from an accepted "opened" payload: trend
defaults to call unless the lowercased trend is "put", an empty uuid is
stored as undefined, deal_type defaults to the current wallet and is
demo unless exactly "real". -/
def openedBidOf (s : EngineState) (item : OpenedPayload) : OpenedBid :=
  { assetRic := item.assetRic.getD (item.ric.getD "")
    closeAt := item.closeQuoteCreatedAt.getD (item.finishedAt.getD "")
    openRate := item.openRate.getD 0
    trend := if jsToLower (item.trend.getD "CALL") = "put" then .put else .call
    uuid := if item.uuid.getD "" = "" then none else some (item.uuid.getD "")
    amount := item.amount
    payment := item.payment
    dealType :=
      if jsToLower (item.dealType.getD
          (if s.currentWalletType = .real then "real" else "demo")) = "real" then .real
      else .demo }

/-- The tracked-bid list trim after a push: past 50 entries the oldest is
shifted off. -/
def trimOpenedBids (l : List OpenedBid) : List OpenedBid :=
  if 50 < l.length then l.drop 1 else l

/-- The 'opened' branch of handleSocketEvent: an event with a non-empty
uuid absent from the pending set is ignored; otherwise the uuid (if any)
is consumed from the pending set, the bid-in-flight guard is cleared,
and — when asset ric and close timestamp are both present — the bid is
appended to the tracked list (with the 50-entry trim). -/
def handleOpened (s : EngineState) (item : OpenedPayload) : EngineState :=
  let uuid := item.uuid.getD ""
  if uuid ≠ "" ∧ uuid ∉ s.pendingUUIDs then s
  else
    let s1 := { s with
      pendingUUIDs := if uuid ≠ "" then s.pendingUUIDs.erase uuid else s.pendingUUIDs
      bidInFlightUntil := none }
    if item.assetRic.getD (item.ric.getD "") ≠ "" ∧
        item.closeQuoteCreatedAt.getD (item.finishedAt.getD "") ≠ "" then
      { s1 with openedBids := trimOpenedBids (s1.openedBids ++ [openedBidOf s item]) }
    else s1

/-- C10 fixture: an "opened" payload with no uuid but a present asset ric
and close timestamp. -/
def c10Item : OpenedPayload :=
  { uuid := none
    assetRic := some "A"
    ric := none
    closeQuoteCreatedAt := some "T"
    finishedAt := none
    openRate := some 1
    trend := some "put"
    amount := none
    payment := none
    dealType := none }

/-- The ResumeState reason codes. -/
inductive ResumeReason where
  | nothing
  | unclosedBid
  | lastBidLost
  | lastBidWonInSwitchDemo
deriving DecidableEq, Repr

/-- A deal-history item as computeResumeState reads it: status, creation
time (the parsed Number(new Date(created_at)); none = absent/falsy
created_at, skipped by the sort filter) and win (none =
absent/undefined — NaN under safeNumber —, some none = null, some
(some q) = numeric). -/
structure DealItem where
  status : Option String
  createdAt : Option ℤ
  win : Option (Option ℚ)
deriving DecidableEq, Repr

/-- The ResumeState value object. -/
structure ResumeState where
  shouldResume : Bool
  resumeStep : ℤ
  reason : ResumeReason
  lastDeal : Option DealItem
deriving DecidableEq, Repr

/-- safeNumber applied to the win field: undefined ⇒ NaN ⇒ null, null ⇒
Number(null) = 0, numeric ⇒ itself. -/
def dealWinNumber (d : DealItem) : Option ℚ :=
  match d.win with
  | none => none
  | some none => some 0
  | some (some q) => some q

/-- The most recent deal by created_at: the stable descending sort of the
deals carrying a created_at, then [0] — the first-listed deal among those
with the maximal timestamp. -/
def latestDeal (deals : List DealItem) : Option DealItem :=
  (deals.filter (fun d => d.createdAt.isSome)).foldl
    (fun acc d =>
      match acc with
      | none => some d
      | some a => if a.createdAt.getD 0 < d.createdAt.getD 0 then some d else acc)
    none

/-- computeResumeState(): any deal with status "opened" (highest
priority) resumes at lastBidStep + 1 with reason UNCLOSED_BID; otherwise
the most recent deal decides — win === 0 ⇒ LAST_BID_LOST, a truthy win
together with the persisted switch-demo flag ⇒
LAST_BID_WON_IN_SWITCH_DEMO — else no resume. `deals` is the
concatenation of the fulfilled demo and real fetches; the persisted
lastBidStep and lastBidWasSwitchDemo are passed in (checkResumeState
loads them from storage first). -/
def computeResumeState (lastBidStep : ℤ) (lastBidWasSwitchDemo : Bool)
    (deals : List DealItem) : ResumeState :=
  match deals.filter (fun d => d.status == some "opened") with
  | d :: _ =>
    { shouldResume := true, resumeStep := lastBidStep + 1, reason := .unclosedBid,
      lastDeal := some d }
  | [] =>
    match latestDeal deals with
    | none =>
      { shouldResume := false, resumeStep := 0, reason := .nothing, lastDeal := none }
    | some d =>
      match dealWinNumber d with
      | some w =>
        if w = 0 then
          { shouldResume := true, resumeStep := lastBidStep + 1, reason := .lastBidLost,
            lastDeal := some d }
        else if lastBidWasSwitchDemo then
          { shouldResume := true, resumeStep := lastBidStep + 1,
            reason := .lastBidWonInSwitchDemo, lastDeal := some d }
        else
          { shouldResume := false, resumeStep := 0, reason := .nothing, lastDeal := some d }
      | none =>
        { shouldResume := false, resumeStep := 0, reason := .nothing, lastDeal := some d }

-- ===== Theorems =====

theorem splitGo_spec (minBid maxBid : ℤ) (hmin : 0 < minBid)
    (hle : minBid ≤ maxBid) (hwide : 2 * minBid ≤ maxBid + 1) :
    ∀ (fuel : ℕ) (remaining : ℤ), minBid ≤ remaining → remaining.toNat ≤ fuel →
      (splitGo minBid maxBid fuel remaining).sum = remaining ∧
      ∀ c ∈ splitGo minBid maxBid fuel remaining, minBid ≤ c ∧ c ≤ maxBid := by
  intro fuel
  induction fuel with
  | zero =>
    intro remaining hrem hfuel
    exfalso
    have h1 : 0 < remaining := lt_of_lt_of_le hmin hrem
    omega
  | succ fuel ih =>
    intro remaining hrem hfuel
    rw [splitGo]
    have hpos : ¬ remaining ≤ 0 := by omega
    simp only [hpos, if_false]
    by_cases hsmall : remaining ≤ maxBid
    · simp only [hsmall, if_true, List.sum_cons, List.sum_nil, List.mem_singleton]
      constructor
      · omega
      · rintro c rfl
        exact ⟨hrem, hsmall⟩
    · simp only [hsmall, if_false]
      set remainder := remaining - maxBid with hremainder
      have hremgt : 0 < remainder := by omega
      set next := if 0 < remainder ∧ remainder < minBid then remaining - minBid else maxBid
        with hnext
      have hnextBounds : minBid ≤ next ∧ next ≤ maxBid := by
        rw [hnext]
        split
        · omega
        · omega
      have hrest : minBid ≤ remaining - next := by
        rw [hnext]
        split
        · omega
        · omega
      have hdec : (remaining - next).toNat ≤ fuel := by
        have : remaining - next < remaining := by omega
        omega
      obtain ⟨hsum, hmem⟩ := ih (remaining - next) hrest hdec
      refine ⟨?_, ?_⟩
      · simp only [List.sum_cons, hsum]
        omega
      · intro c hc
        rcases List.mem_cons.mp hc with rfl | hc
        · exact hnextBounds
        · exact hmem c hc

/-- Per-currency bound table facts used by the split invariant: the bounds
are positive, ordered, and wide enough (max ≥ 2·min − 1, in minor units)
that the fold-back never produces an undersized chunk. -/
theorem bidBounds_wide (currency : String) :
    0 < minBidByCurrency currency * 100 ∧
      minBidByCurrency currency * 100 ≤ maxBidByCurrency currency * 100 ∧
      2 * (minBidByCurrency currency * 100) ≤ maxBidByCurrency currency * 100 + 1 := by
  unfold minBidByCurrency maxBidByCurrency
  split_ifs <;> norm_num

/-- C2: for every currency's bid bounds (in ×100 minor units) and any total
above the maximum, splitBidAmounts returns chunks that sum exactly to the
total, none exceeding maxBid and none below minBid. -/
theorem splitBidAmounts_invariant (currency : String) (total : ℤ)
    (htotal : total > maxBidByCurrency currency * 100) :
    (splitBidAmounts total (minBidByCurrency currency * 100)
        (maxBidByCurrency currency * 100)).sum = total ∧
      ∀ c ∈ splitBidAmounts total (minBidByCurrency currency * 100)
          (maxBidByCurrency currency * 100),
        minBidByCurrency currency * 100 ≤ c ∧ c ≤ maxBidByCurrency currency * 100 := by
  obtain ⟨hmin, hle, hwide⟩ := bidBounds_wide currency
  unfold splitBidAmounts
  have hns : ¬ total ≤ maxBidByCurrency currency * 100 := by omega
  simp only [hns, if_false]
  exact splitGo_spec _ _ hmin hle hwide (total.toNat + 1) total (by omega) (by omega)

/-- C8: a set skipStopLossOnce suppresses exactly one stop-loss check.
When the flag is set and the (independent) stop-profit rule does not fire,
the risk-rule evaluation only clears the flag — no switch-demo entry, no
stop, nothing else — even if martingaleStep > stopLoss; and because the
flag is cleared, the immediately following evaluation applies the
stop-loss rule normally (entering switch-demo when auto-switch is
available, stopping the engine when auto-switch is disabled). -/
theorem skipStopLossOnce_suppresses_one_check (s : EngineState)
    (hskip : s.skipStopLossOnce = true) (hsp : ¬ stopProfitHit s) :
    applyRiskRules s = { s with skipStopLossOnce := false } ∧
      (∀ l : ℤ, s.config.stopLoss = some l → 0 < l → (s.martingaleStep : ℤ) > l →
        s.switchDemoActive = false → s.config.autoSwitchDemo = true →
        s.currentWalletType = .real → s.allowAutoSwitch = true →
        (applyRiskRules (applyRiskRules s)).switchDemoActive = true) ∧
      (∀ l : ℤ, s.config.stopLoss = some l → 0 < l → (s.martingaleStep : ℤ) > l →
        s.switchDemoActive = false → s.config.autoSwitchDemo = false →
        (applyRiskRules (applyRiskRules s)).status = .stopped) := by
  have hsp' : ¬ stopProfitHit { s with skipStopLossOnce := false } := by
    intro ⟨p, hp, hpos, hge⟩
    exact hsp ⟨p, hp, hpos, by simpa [getCurrentProfit] using hge⟩
  have hfirst : applyRiskRules s = { s with skipStopLossOnce := false } := by
    unfold applyRiskRules
    rw [if_pos hskip]
    unfold stopProfitCheck
    split
    · rename_i p hcfg
      rw [if_neg]
      rintro ⟨hpos, hge⟩
      exact hsp' ⟨p, hcfg, hpos, hge⟩
    · rfl
  refine ⟨hfirst, ?_, ?_⟩
  · intro l hl hlpos hstep hsd hauto hwallet hallow
    rw [hfirst]
    unfold applyRiskRules
    rw [if_neg (by simp)]
    rw [if_pos (show stopLossBreached { s with skipStopLossOnce := false } = true by
      simp only [stopLossBreached]
      dsimp only
      rw [hl]
      simp [hsd, hlpos, hstep])]
    rw [if_pos (by simp [shouldSwitchToDemo, hauto, hwallet, hsd, hallow])]
    rfl
  · intro l hl hlpos hstep hsd hauto
    rw [hfirst]
    unfold applyRiskRules
    rw [if_neg (by simp)]
    rw [if_pos (show stopLossBreached { s with skipStopLossOnce := false } = true by
      simp only [stopLossBreached]
      dsimp only
      rw [hl]
      simp [hsd, hlpos, hstep])]
    rw [if_neg (by simp [shouldSwitchToDemo, hauto]), if_pos (by simp [hauto])]
    rfl

/-- Witness for C2: splitting 1,000,100 with the USD bounds (min 100, max
500,000 minor units). -/
theorem splitBidAmounts_invariant_witness :
    (1000100 : ℤ) > maxBidByCurrency "USD" * 100 ∧
      (splitBidAmounts 1000100 (minBidByCurrency "USD" * 100)
          (maxBidByCurrency "USD" * 100)).sum = 1000100 ∧
      ∀ c ∈ splitBidAmounts 1000100 (minBidByCurrency "USD" * 100)
          (maxBidByCurrency "USD" * 100),
        minBidByCurrency "USD" * 100 ≤ c ∧ c ≤ maxBidByCurrency "USD" * 100 :=
  ⟨by decide, splitBidAmounts_invariant "USD" 1000100 (by decide)⟩

theorem fastTrendUpdate_proj (r : Outcome) (s : EngineState) (bid : OpenedBid) :
    (fastTrendUpdate r s bid).martingaleStep = s.martingaleStep ∧
      (fastTrendUpdate r s bid).switchDemoActive = s.switchDemoActive ∧
      (fastTrendUpdate r s bid).config = s.config := by
  unfold fastTrendUpdate
  split <;> simp

theorem lossBranch_proj (t : EngineState) :
    (lossBranch t).martingaleStep = lossStepUpdate t.config.resetMartingale t.martingaleStep ∧
      (lossBranch t).switchDemoActive = t.switchDemoActive ∧
      (lossBranch t).config = t.config := by
  unfold lossBranch lossStepUpdate applyCooldown
  dsimp only
  cases hr : t.config.resetMartingale with
  | none => exact ⟨rfl, rfl, rfl⟩
  | some r =>
    dsimp only
    by_cases h0 : r = 0
    · rw [if_pos h0, if_pos h0]
      exact ⟨rfl, rfl, rfl⟩
    · rw [if_neg h0, if_neg h0]
      by_cases h1 : 0 < r ∧ (t.martingaleStep : ℤ) ≥ r
      · rw [if_pos h1, if_pos h1]
        split <;> exact ⟨rfl, rfl, rfl⟩
      · rw [if_neg h1, if_neg h1]
        exact ⟨rfl, rfl, rfl⟩

theorem settleBid_loss_proj (s : EngineState) (hsd : s.switchDemoActive = false) :
    (settleBid 0 s losingBid).martingaleStep =
        lossStepUpdate s.config.resetMartingale s.martingaleStep ∧
      (settleBid 0 s losingBid).switchDemoActive = false ∧
      (settleBid 0 s losingBid).config = s.config := by
  have hres : resolveOutcome losingBid.trend losingBid.openRate 0 = .loss := by decide
  obtain ⟨h1, h2, h3⟩ := fastTrendUpdate_proj .loss s losingBid
  obtain ⟨g1, g2, g3⟩ := lossBranch_proj (fastTrendUpdate .loss s losingBid)
  have hsd1 : (fastTrendUpdate .loss s losingBid).switchDemoActive = false := h2.trans hsd
  unfold settleBid
  rw [hres]
  dsimp only
  rw [if_neg (by rw [hsd1]; exact Bool.false_ne_true)]
  refine ⟨?_, g2.trans hsd1, g3.trans h3⟩
  rw [g1, h1, h3]

theorem settleLosses_proj (s : EngineState) (hsd : s.switchDemoActive = false) (n : ℕ) :
    (settleLosses n s).martingaleStep =
        (fun st => lossStepUpdate s.config.resetMartingale st)^[n] s.martingaleStep ∧
      (settleLosses n s).switchDemoActive = false ∧
      (settleLosses n s).config = s.config := by
  induction n with
  | zero => exact ⟨rfl, hsd, rfl⟩
  | succ n ih =>
    obtain ⟨ih1, ih2, ih3⟩ := ih
    have hsucc : settleLosses (n + 1) s = settleBid 0 (settleLosses n s) losingBid := by
      unfold settleLosses
      rw [Function.iterate_succ_apply']
    obtain ⟨p1, p2, p3⟩ := settleBid_loss_proj (settleLosses n s) ih2
    refine ⟨?_, ?_, ?_⟩
    · rw [hsucc, p1, ih3, ih1, Function.iterate_succ_apply']
    · rw [hsucc]
      exact p2
    · rw [hsucc, p3, ih3]

theorem lossStepUpdate_some_zero (st : ℕ) : lossStepUpdate (some 0) st = 0 := by
  simp [lossStepUpdate]

theorem lossStepUpdate_pos_le (r : ℤ) (hr : 0 < r) (st : ℕ)
    (hst : (st : ℤ) ≤ min r 100) : ((lossStepUpdate (some r) st : ℕ) : ℤ) ≤ min r 100 := by
  unfold lossStepUpdate MAX_K_STEP
  dsimp only
  split_ifs with h1 h2
  · omega
  · push_cast
    omega
  · push_cast
    omega

theorem lossStepUpdate_le_100 (reset : Option ℤ) (st : ℕ) :
    lossStepUpdate reset st ≤ 100 := by
  unfold lossStepUpdate
  exact min_le_right _ _

theorem iterate_lossStepUpdate_zero (n : ℕ) :
    (fun st => lossStepUpdate (some 0) st)^[n] 0 = 0 := by
  induction n with
  | zero => rfl
  | succ n ih => rw [Function.iterate_succ_apply', ih, lossStepUpdate_some_zero]

theorem iterate_lossStepUpdate_pos (r : ℤ) (hr : 0 < r) (n : ℕ) (st : ℕ)
    (hst : (st : ℤ) ≤ min r 100) :
    (((fun u => lossStepUpdate (some r) u)^[n] st : ℕ) : ℤ) ≤ min r 100 := by
  induction n generalizing st with
  | zero => exact hst
  | succ n ih =>
    rw [Function.iterate_succ_apply]
    exact ih _ (lossStepUpdate_pos_le r hr st hst)

theorem iterate_lossStepUpdate_le_100 (reset : Option ℤ) (n : ℕ) (st : ℕ)
    (hst : st ≤ 100) : (fun u => lossStepUpdate reset u)^[n] st ≤ 100 := by
  cases n with
  | zero => exact hst
  | succ n =>
    rw [Function.iterate_succ_apply']
    exact lossStepUpdate_le_100 reset _

/-- C1: over any sequence of loss settlements processed outside
switch-demo mode, martingaleStep obeys the resetMartingale policy: with
resetMartingale = 0 it stays 0; with a positive threshold N it never
exceeds min(N, 100), resetting to 0 once it has reached N and otherwise
incrementing (clamped at the hard ceiling); with a negative or non-finite
resetMartingale it increments unconditionally but never exceeds 100. -/
theorem martingale_loss_bounds (s : EngineState) (n : ℕ)
    (hsd : s.switchDemoActive = false) (h0 : s.martingaleStep = 0) :
    (s.config.resetMartingale = some 0 → (settleLosses n s).martingaleStep = 0) ∧
      (∀ N : ℤ, s.config.resetMartingale = some N → 0 < N →
        ((settleLosses n s).martingaleStep : ℤ) ≤ min N 100) ∧
      ((s.config.resetMartingale = none ∨
          ∃ N : ℤ, s.config.resetMartingale = some N ∧ N < 0) →
        (settleLosses n s).martingaleStep ≤ 100) ∧
      (∀ t : EngineState, t.switchDemoActive = false → ∀ N : ℤ,
        t.config.resetMartingale = some N → 0 < N →
        (N ≤ (t.martingaleStep : ℤ) → (settleBid 0 t losingBid).martingaleStep = 0) ∧
          ((t.martingaleStep : ℤ) < N →
            (settleBid 0 t losingBid).martingaleStep = min (t.martingaleStep + 1) MAX_K_STEP)) ∧
      (∀ t : EngineState, t.switchDemoActive = false →
        (t.config.resetMartingale = none ∨
            ∃ N : ℤ, t.config.resetMartingale = some N ∧ N < 0) →
        (settleBid 0 t losingBid).martingaleStep = min (t.martingaleStep + 1) MAX_K_STEP) := by
  obtain ⟨hit, -, -⟩ := settleLosses_proj s hsd n
  refine ⟨?_, ?_, ?_, ?_, ?_⟩
  · intro hr
    rw [hit, hr, h0]
    exact iterate_lossStepUpdate_zero n
  · intro N hr hN
    rw [hit, hr, h0]
    exact iterate_lossStepUpdate_pos N hN n 0 (by positivity)
  · intro hr
    rw [hit, h0]
    exact iterate_lossStepUpdate_le_100 _ n 0 (by norm_num)
  · intro t htsd N hr hN
    obtain ⟨p1, -, -⟩ := settleBid_loss_proj t htsd
    rw [p1, hr]
    unfold lossStepUpdate MAX_K_STEP
    dsimp only
    constructor
    · intro hge
      rw [if_neg (by omega), if_pos ⟨hN, hge⟩]
      rfl
    · intro hlt
      rw [if_neg (by omega), if_neg (by omega)]
  · intro t htsd hr
    obtain ⟨p1, -, -⟩ := settleBid_loss_proj t htsd
    rw [p1]
    rcases hr with hr | ⟨N, hr, hN⟩
    · rw [hr]
      rfl
    · rw [hr]
      unfold lossStepUpdate MAX_K_STEP
      dsimp only
      rw [if_neg (by omega), if_neg (by omega)]

/-- Witness for C1 at resetMartingale = 3, seven consecutive losses. -/
theorem martingale_loss_bounds_witness :
    ((settleLosses 7 { baseState with
        config := { baseConfig with resetMartingale := some 3 } }).martingaleStep : ℤ) ≤
      min 3 100 :=
  (martingale_loss_bounds _ 7 rfl rfl).2.1 3 rfl (by norm_num)

/-- Witness for C8 at the concrete fixture state. -/
theorem skipStopLossOnce_witness :
    applyRiskRules c8State = { c8State with skipStopLossOnce := false } ∧
      (applyRiskRules (applyRiskRules c8State)).switchDemoActive = true := by
  obtain ⟨h1, h2, -⟩ := skipStopLossOnce_suppresses_one_check c8State rfl (by
    rintro ⟨p, hp, -, -⟩
    simp [c8State, baseState, baseConfig] at hp)
  exact ⟨h1, h2 2 rfl (by norm_num) (by decide) rfl rfl rfl rfl⟩

theorem applyCooldown_shell (t : EngineState) :
    (applyCooldown t).openedBids = t.openedBids ∧
      (applyCooldown t).processedBatches = t.processedBatches := by
  unfold applyCooldown
  split <;> exact ⟨rfl, rfl⟩

theorem winReset_shell (t : EngineState) :
    (winReset t).openedBids = t.openedBids ∧
      (winReset t).processedBatches = t.processedBatches := by
  unfold winReset
  exact ⟨(applyCooldown_shell _).1.trans rfl, (applyCooldown_shell _).2.trans rfl⟩

theorem exitSwitchDemoOnWin_shell (t : EngineState) :
    (exitSwitchDemoOnWin t).openedBids = t.openedBids ∧
      (exitSwitchDemoOnWin t).processedBatches = t.processedBatches := by
  unfold exitSwitchDemoOnWin
  exact ⟨(applyCooldown_shell _).1.trans rfl, (applyCooldown_shell _).2.trans rfl⟩

theorem lossBranch_shell (t : EngineState) :
    (lossBranch t).openedBids = t.openedBids ∧
      (lossBranch t).processedBatches = t.processedBatches := by
  unfold lossBranch
  dsimp only
  cases hr : t.config.resetMartingale with
  | none => exact ⟨rfl, rfl⟩
  | some r =>
    dsimp only
    by_cases h0 : r = 0
    · rw [if_pos h0]
      exact ⟨rfl, rfl⟩
    · rw [if_neg h0]
      by_cases h1 : 0 < r ∧ (t.martingaleStep : ℤ) ≥ r
      · rw [if_pos h1]
        exact ⟨(applyCooldown_shell _).1.trans rfl, (applyCooldown_shell _).2.trans rfl⟩
      · rw [if_neg h1]
        exact ⟨rfl, rfl⟩

theorem fastTrendUpdate_shell (r : Outcome) (s : EngineState) (bid : OpenedBid) :
    (fastTrendUpdate r s bid).openedBids = s.openedBids ∧
      (fastTrendUpdate r s bid).processedBatches = s.processedBatches := by
  unfold fastTrendUpdate
  split <;> exact ⟨rfl, rfl⟩

theorem settleBid_shell (e : ℚ) (s : EngineState) (bid : OpenedBid) :
    (settleBid e s bid).openedBids = s.openedBids ∧
      (settleBid e s bid).processedBatches = s.processedBatches := by
  obtain ⟨f1, f2⟩ := fastTrendUpdate_shell (resolveOutcome bid.trend bid.openRate e) s bid
  unfold settleBid
  cases hres : resolveOutcome bid.trend bid.openRate e <;> rw [hres] at f1 f2 <;> dsimp only
  · split
    · exact ⟨(exitSwitchDemoOnWin_shell _).1.trans f1,
        (exitSwitchDemoOnWin_shell _).2.trans f2⟩
    · exact ⟨(winReset_shell _).1.trans f1, (winReset_shell _).2.trans f2⟩
  · split
    · exact ⟨f1, f2⟩
    · exact ⟨(lossBranch_shell _).1.trans f1, (lossBranch_shell _).2.trans f2⟩
  · exact ⟨f1, f2⟩

theorem foldl_settleBid_shell (e : ℚ) (l : List OpenedBid) :
    ∀ s : EngineState,
      (l.foldl (settleBid e) s).openedBids = s.openedBids ∧
        (l.foldl (settleBid e) s).processedBatches = s.processedBatches := by
  induction l with
  | nil => exact fun s => ⟨rfl, rfl⟩
  | cons b l ih =>
    intro s
    obtain ⟨i1, i2⟩ := ih (settleBid e s b)
    obtain ⟨j1, j2⟩ := settleBid_shell e s b
    exact ⟨i1.trans j1, i2.trans j2⟩

theorem stopProfitCheck_openedBids (t : EngineState) :
    (stopProfitCheck t).openedBids = t.openedBids ∨ (stopProfitCheck t).openedBids = [] := by
  unfold stopProfitCheck stopEngine
  repeat' split
  · right; rfl
  · left; rfl
  · left; rfl

theorem stopProfitCheck_processedBatches (t : EngineState) :
    (stopProfitCheck t).processedBatches = t.processedBatches ∨
      (stopProfitCheck t).processedBatches = [] := by
  unfold stopProfitCheck stopEngine
  repeat' split
  · right; rfl
  · left; rfl
  · left; rfl

theorem applyRiskRules_openedBids (t : EngineState) :
    (applyRiskRules t).openedBids = t.openedBids ∨ (applyRiskRules t).openedBids = [] := by
  unfold applyRiskRules
  split
  · exact (stopProfitCheck_openedBids _).imp (fun h => h.trans rfl) id
  · split
    · split
      · left; rfl
      · split
        · right; rfl
        · exact stopProfitCheck_openedBids t
    · exact stopProfitCheck_openedBids t

theorem applyRiskRules_processedBatches (t : EngineState) :
    (applyRiskRules t).processedBatches = t.processedBatches ∨
      (applyRiskRules t).processedBatches = [] := by
  unfold applyRiskRules
  split
  · exact (stopProfitCheck_processedBatches _).imp (fun h => h.trans rfl) id
  · split
    · split
      · left; rfl
      · split
        · right; rfl
        · exact stopProfitCheck_processedBatches t
    · exact stopProfitCheck_processedBatches t

theorem handleBatch_mem_noop (pf : ℚ × ℚ) (s : EngineState) (p : BatchPayload)
    (h : batchKey p ∈ s.processedBatches) : handleCloseDealBatch pf s p = s := by
  unfold handleCloseDealBatch
  by_cases h1 : batchRic p = "" ∨ batchFinishedAt p = ""
  · rw [if_pos h1]
  · rw [if_neg h1, if_pos h]

theorem mem_recordBatchKey (l : List String) (k : String) : k ∈ recordBatchKey l k := by
  unfold recordBatchKey
  dsimp only
  split
  · rename_i hlen
    rw [List.drop_append_of_le_length (by
      simp only [List.length_append, List.length_cons, List.length_nil] at hlen
      omega)]
    exact List.mem_append_right _ (List.mem_singleton_self k)
  · exact List.mem_append_right _ (List.mem_singleton_self k)

theorem handleBatch_nomatch (pf : ℚ × ℚ) (s : EngineState) (p : BatchPayload)
    (h1 : ¬(batchRic p = "" ∨ batchFinishedAt p = ""))
    (h2 : batchKey p ∉ s.processedBatches)
    (h3 : ∀ b ∈ s.openedBids, bidMatches (batchRic p) (batchFinishedAt p) b = false) :
    handleCloseDealBatch pf s p =
      { s with processedBatches := recordBatchKey s.processedBatches (batchKey p) } := by
  unfold handleCloseDealBatch
  rw [if_neg h1, if_neg h2]
  dsimp only
  rw [if_pos (List.filter_eq_nil_iff.mpr (fun b hb => by simp [h3 b hb]))]

theorem handleBatch_openedBids_subset (pf : ℚ × ℚ) (s : EngineState) (p : BatchPayload) :
    ∀ bid ∈ (handleCloseDealBatch pf s p).openedBids, bid ∈ s.openedBids := by
  unfold handleCloseDealBatch
  by_cases h1 : batchRic p = "" ∨ batchFinishedAt p = ""
  · rw [if_pos h1]
    exact fun bid hb => hb
  · rw [if_neg h1]
    by_cases h2 : batchKey p ∈ s.processedBatches
    · rw [if_pos h2]
      exact fun bid hb => hb
    · rw [if_neg h2]
      dsimp only
      split
      · exact fun bid hb => hb
      · intro bid hb
        rcases applyRiskRules_openedBids _ with h | h
        · rw [h] at hb
          dsimp only at hb
          rw [(foldl_settleBid_shell _ _ _).1] at hb
          dsimp only at hb
          exact (List.mem_filter.mp hb).1
        · rw [h] at hb
          simp at hb

theorem handleBatch_batches_cases (pf : ℚ × ℚ) (s : EngineState) (p : BatchPayload) :
    (handleCloseDealBatch pf s p).processedBatches = s.processedBatches ∨
      (handleCloseDealBatch pf s p).processedBatches =
        recordBatchKey s.processedBatches (batchKey p) ∨
      (handleCloseDealBatch pf s p).processedBatches = [] := by
  unfold handleCloseDealBatch
  by_cases h1 : batchRic p = "" ∨ batchFinishedAt p = ""
  · rw [if_pos h1]
    left; rfl
  · rw [if_neg h1]
    by_cases h2 : batchKey p ∈ s.processedBatches
    · rw [if_pos h2]
      left; rfl
    · rw [if_neg h2]
      dsimp only
      split
      · right; left; rfl
      · rcases applyRiskRules_processedBatches _ with h | h
        · right; left
          rw [h]
          dsimp only
          rw [(foldl_settleBid_shell _ _ _).2]
        · right; right
          exact h

theorem runBatches_preserve_key (k : String) :
    ∀ (rest : List ((ℚ × ℚ) × BatchPayload)) (s : EngineState),
      k ∈ s.processedBatches →
      s.processedBatches.length + rest.length ≤ 100 →
      (∀ x ∈ rest, ∀ b ∈ s.openedBids,
        bidMatches (batchRic x.2) (batchFinishedAt x.2) b = false) →
      k ∈ (runBatches s rest).processedBatches ∧
        (runBatches s rest).processedBatches.length ≤
          s.processedBatches.length + rest.length ∧
        (runBatches s rest).openedBids = s.openedBids := by
  intro rest
  induction rest with
  | nil =>
    intro s hk hlen hnm
    exact ⟨hk, Nat.le_add_right _ _, rfl⟩
  | cons x rest ih =>
    intro s hk hlen hnm
    have hlen' : s.processedBatches.length + rest.length + 1 ≤ 100 := by
      simp only [List.length_cons] at hlen
      omega
    have hstep : handleCloseDealBatch x.1 s x.2 = s ∨
        handleCloseDealBatch x.1 s x.2 =
          { s with processedBatches := s.processedBatches ++ [batchKey x.2] } := by
      by_cases h1 : batchRic x.2 = "" ∨ batchFinishedAt x.2 = ""
      · left
        unfold handleCloseDealBatch
        rw [if_pos h1]
      · by_cases h2 : batchKey x.2 ∈ s.processedBatches
        · left
          exact handleBatch_mem_noop x.1 s x.2 h2
        · right
          have hrec : recordBatchKey s.processedBatches (batchKey x.2) =
              s.processedBatches ++ [batchKey x.2] := by
            unfold recordBatchKey
            dsimp only
            rw [if_neg (by
              simp only [List.length_append, List.length_cons, List.length_nil]
              omega)]
          rw [handleBatch_nomatch x.1 s x.2 h1 h2
            (fun b hb => hnm x (List.mem_cons_self x rest) b hb), hrec]
    have hrun : runBatches s (x :: rest) = runBatches (handleCloseDealBatch x.1 s x.2) rest :=
      rfl
    rcases hstep with hs | hs
    · rw [hrun, hs]
      obtain ⟨c1, c2, c3⟩ := ih s hk (by omega)
        (fun y hy => hnm y (List.mem_cons_of_mem x hy))
      exact ⟨c1, by simp only [List.length_cons]; omega, c3⟩
    · rw [hrun, hs]
      obtain ⟨c1, c2, c3⟩ := ih { s with processedBatches := s.processedBatches ++ [batchKey x.2] }
        (List.mem_append_left _ hk)
        (by simp only [List.length_append, List.length_cons, List.length_nil]; omega)
        (fun y hy => hnm y (List.mem_cons_of_mem x hy))
      refine ⟨c1, ?_, c3⟩
      simp only [List.length_append, List.length_cons, List.length_nil] at c2
      simp only [List.length_cons]
      omega

/-- C9: a close_deal_batch whose (ric, finished_at) matches no tracked
OpenedBid leaves every part of the engine state except the
processed-batch dedupe set unchanged, but the key is still recorded; a
later batch carrying the same key is then deduplicated entirely — in
particular it never mutates ladder state — even if a matching OpenedBid
has been registered in between. -/
theorem unmatched_batch_records_key_only (pf : ℚ × ℚ) (s : EngineState) (p : BatchPayload)
    (hric : batchRic p ≠ "") (hfin : batchFinishedAt p ≠ "")
    (hnew : batchKey p ∉ s.processedBatches)
    (hnm : ∀ bid ∈ s.openedBids, bidMatches (batchRic p) (batchFinishedAt p) bid = false) :
    handleCloseDealBatch pf s p =
        { s with processedBatches := recordBatchKey s.processedBatches (batchKey p) } ∧
      batchKey p ∈ (handleCloseDealBatch pf s p).processedBatches ∧
      ∀ (s2 : EngineState) (pf2 : ℚ × ℚ), batchKey p ∈ s2.processedBatches →
        handleCloseDealBatch pf2 s2 p = s2 := by
  have h1 : ¬(batchRic p = "" ∨ batchFinishedAt p = "") := not_or.mpr ⟨hric, hfin⟩
  have heq := handleBatch_nomatch pf s p h1 hnew hnm
  refine ⟨heq, ?_, fun s2 pf2 hk => handleBatch_mem_noop pf2 s2 p hk⟩
  rw [heq]
  exact mem_recordBatchKey _ _

/-- Witness for C9: an unmatched batch against the fresh fixture state. -/
theorem unmatched_batch_witness :
    handleCloseDealBatch (0, 0) baseState c9Batch =
        { baseState with
          processedBatches := recordBatchKey baseState.processedBatches (batchKey c9Batch) } ∧
      batchKey c9Batch ∈ (handleCloseDealBatch (0, 0) baseState c9Batch).processedBatches := by
  obtain ⟨h1, h2, -⟩ := unmatched_batch_records_key_only (0, 0) baseState c9Batch
    (by decide) (by decide) (by decide)
    (by intro bid hb; simp [baseState] at hb)
  exact ⟨h1, h2⟩

/-- Counterexample to C5 as stated: the first processing of the batch
settles the tracked losing bid, the stop-loss rule (auto-switch disabled)
stops the engine, and stop() clears the dedupe set — so an immediately
repeated identical payload (zero intervening batch keys, well under the
eviction bound) re-records the key: engine state is not left unchanged. -/
theorem duplicate_batch_counterexample :
    handleCloseDealBatch (0, 0) (handleCloseDealBatch (0, 0) c5State c5Batch) c5Batch ≠
      handleCloseDealBatch (0, 0) c5State c5Batch := by
  intro h
  have h2 := congrArg EngineState.processedBatches h
  have hinner : (handleCloseDealBatch (0, 0) c5State c5Batch).processedBatches = [] := by
    decide
  have houter :
      (handleCloseDealBatch (0, 0) (handleCloseDealBatch (0, 0) c5State c5Batch)
          c5Batch).processedBatches = [batchKey c5Batch] := by
    decide
  rw [houter, hinner] at h2
  exact List.cons_ne_nil _ _ h2

/-- C5 (amended): processing the same close_deal_batch payload twice
mutates ladder state only once; the second processing is deduplicated by
the (ric, finished_at) key and leaves all engine state unchanged provided
the key survived the first processing (an engine stop during it clears
the dedupe set) and the intervening batches — fewer than the eviction
bound of 100 — match no tracked bid. -/
theorem duplicate_batch_second_noop (s0 : EngineState) (b : BatchPayload)
    (pf1 pf2 : ℚ × ℚ) (rest : List ((ℚ × ℚ) × BatchPayload))
    (hempty : s0.processedBatches = [])
    (hkey : batchKey b ∈ (handleCloseDealBatch pf1 s0 b).processedBatches)
    (hlen : rest.length ≤ 99)
    (hnm : ∀ x ∈ rest, ∀ bid ∈ s0.openedBids,
      bidMatches (batchRic x.2) (batchFinishedAt x.2) bid = false) :
    handleCloseDealBatch pf2 (runBatches (handleCloseDealBatch pf1 s0 b) rest) b =
      runBatches (handleCloseDealBatch pf1 s0 b) rest := by
  have hbs1 : (handleCloseDealBatch pf1 s0 b).processedBatches = [batchKey b] := by
    rcases handleBatch_batches_cases pf1 s0 b with h | h | h
    · rw [h, hempty] at hkey
      simp at hkey
    · rw [h, hempty]
      rfl
    · rw [h] at hkey
      simp at hkey
  have hsub := handleBatch_openedBids_subset pf1 s0 b
  obtain ⟨hk2, -, -⟩ := runBatches_preserve_key (batchKey b) rest
    (handleCloseDealBatch pf1 s0 b)
    (by rw [hbs1]; exact List.mem_singleton_self _)
    (by rw [hbs1]; simp only [List.length_cons, List.length_nil]; omega)
    (fun x hx bid hb => hnm x hx bid (hsub bid hb))
  exact handleBatch_mem_noop pf2 _ b hk2

/-- Witness for the amended C5: an immediate duplicate of a settled batch
with no stop rule firing is a complete no-op. -/
theorem duplicate_batch_second_noop_witness :
    handleCloseDealBatch (0, 0)
        (runBatches (handleCloseDealBatch (0, 0) c5WitnessState c5Batch) []) c5Batch =
      runBatches (handleCloseDealBatch (0, 0) c5WitnessState c5Batch) [] := by
  refine duplicate_batch_second_noop c5WitnessState c5Batch (0, 0) (0, 0) [] rfl
    (by decide) (by decide) ?_
  intro x hx
  exact absurd hx (List.not_mem_nil x)

/-- C6: the engine never transmits a bid-create frame while any tracked
OpenedBid or pending acknowledgement UUID exists — such an invocation of
sendBid leaves the state untouched and writes nothing to either
channel. -/
theorem no_bid_while_position_open (s : EngineState) (trend : Trend) (index : ℕ)
    (bypass : Bool) (nowMs : ℕ)
    (h : s.openedBids ≠ [] ∨ s.pendingUUIDs ≠ []) :
    sendBid s trend index bypass nowMs = (s, []) := by
  have hg : (!s.openedBids.isEmpty || !s.pendingUUIDs.isEmpty) = true := by
    rcases h with h | h
    · cases hl : s.openedBids with
      | nil => exact absurd hl h
      | cons a l => simp [hl]
    · cases hl : s.pendingUUIDs with
      | nil => exact absurd hl h
      | cons a l => simp [hl]
  unfold sendBid
  rw [hg]
  simp

/-- Witness for C6: a pending acknowledgement UUID blocks the bid. -/
theorem no_bid_while_position_open_witness :
    c6State.pendingUUIDs ≠ [] ∧
      sendBid c6State Trend.call 0 false 0 = (c6State, []) :=
  ⟨by decide, no_bid_while_position_open c6State Trend.call 0 false 0 (Or.inr (by decide))⟩

theorem calculateBidAmounts_split (s : EngineState)
    (hpos : 0 < rawBidAmount s)
    (hmax : rawBidAmount s > maxBidByCurrency (jsToUpper s.userCurrency) * 100) :
    calculateBidAmounts s =
      (splitBidAmounts (rawBidAmount s)
        (minBidByCurrency (jsToUpper s.userCurrency) * 100)
        (maxBidByCurrency (jsToUpper s.userCurrency) * 100), s) := by
  have hmin : ¬ rawBidAmount s < minBidByCurrency (jsToUpper s.userCurrency) * 100 := by
    obtain ⟨-, hle, -⟩ := bidBounds_wide (jsToUpper s.userCurrency)
    omega
  unfold calculateBidAmounts
  rw [if_neg (by omega), if_neg hmin, if_pos hmax]

theorem jsRound_intCast (n : ℤ) : jsRound (n : ℚ) = n := by
  unfold jsRound
  rw [Int.floor_eq_iff]
  constructor
  · linarith
  · linarith

/-- C3 (amended): the insufficient-funds guard applies exactly to bids
that need no splitting: when the computed amount lies within the
per-currency bounds, the target wallet balance is known positive and the
amount exceeds it, calculateBidAmounts returns no amounts and stops the
engine; an oversized amount is split and returned without consulting the
balance, leaving the engine running. -/
theorem insufficient_funds_guard :
    (∀ s : EngineState, 0 < rawBidAmount s →
      ¬ rawBidAmount s < minBidByCurrency (jsToUpper s.userCurrency) * 100 →
      ¬ rawBidAmount s > maxBidByCurrency (jsToUpper s.userCurrency) * 100 →
      0 < availableBalance s → (rawBidAmount s : ℚ) > availableBalance s →
      calculateBidAmounts s = ([], stopEngine s)) ∧
    ∀ s : EngineState, 0 < rawBidAmount s →
      rawBidAmount s > maxBidByCurrency (jsToUpper s.userCurrency) * 100 →
      calculateBidAmounts s =
        (splitBidAmounts (rawBidAmount s)
          (minBidByCurrency (jsToUpper s.userCurrency) * 100)
          (maxBidByCurrency (jsToUpper s.userCurrency) * 100), s) := by
  constructor
  · intro s hpos hmin hmax hbal hover
    unfold calculateBidAmounts
    rw [if_neg (by omega), if_neg hmin, if_neg hmax, if_pos ⟨hbal, hover⟩]
  · intro s hpos hmax
    exact calculateBidAmounts_split s hpos hmax

theorem rawBidAmount_c3GuardState : rawBidAmount c3GuardState = 10000 := by
  have hUp : jsToUpper "USD" = "USD" := by decide
  unfold rawBidAmount getBidAmountForCurrency compoundedAmount
  norm_num [c3GuardState, baseState, baseConfig, hUp, jsRound, MAX_K_STEP]

/-- Witness for the amended C3 at the concrete fixture. -/
theorem insufficient_funds_guard_witness :
    calculateBidAmounts c3GuardState = ([], stopEngine c3GuardState) := by
  have hUp : jsToUpper "USD" = "USD" := by decide
  refine insufficient_funds_guard.1 c3GuardState ?_ ?_ ?_ ?_ ?_
  · rw [rawBidAmount_c3GuardState]
    norm_num
  · rw [rawBidAmount_c3GuardState]
    show ¬ (10000 : ℤ) < minBidByCurrency (jsToUpper "USD") * 100
    rw [hUp]
    decide
  · rw [rawBidAmount_c3GuardState]
    show ¬ (10000 : ℤ) > maxBidByCurrency (jsToUpper "USD") * 100
    rw [hUp]
    decide
  · show (0 : ℚ) < availableBalance c3GuardState
    rw [show availableBalance c3GuardState = 50 from rfl]
    norm_num
  · rw [rawBidAmount_c3GuardState]
    show ((10000 : ℤ) : ℚ) > availableBalance c3GuardState
    rw [show availableBalance c3GuardState = 50 from rfl]
    norm_num

theorem rawBidAmount_c3State : rawBidAmount c3State = 600000 := by
  have hUp : jsToUpper "USD" = "USD" := by decide
  unfold rawBidAmount getBidAmountForCurrency compoundedAmount
  norm_num [c3State, baseState, baseConfig, hUp, jsRound, MAX_K_STEP]

/-- Counterexample to C3 as stated: with the known real-wallet balance
positive (100) and the computed amount 600,000 far above it, the amount
is oversized, so calculateBidAmounts returns the split chunks and leaves
the engine untouched — the insufficient-funds guard never runs for split
bids. -/
theorem insufficient_funds_counterexample :
    (0 : ℚ) < availableBalance c3State ∧
      (rawBidAmount c3State : ℚ) > availableBalance c3State ∧
      calculateBidAmounts c3State = ([500000, 100000], c3State) := by
  have hUp : jsToUpper "USD" = "USD" := by decide
  have hbal : availableBalance c3State = 100 := rfl
  refine ⟨by rw [hbal]; norm_num, by rw [hbal, rawBidAmount_c3State]; norm_num, ?_⟩
  have h2 := calculateBidAmounts_split c3State
    (by rw [rawBidAmount_c3State]; norm_num)
    (by rw [rawBidAmount_c3State]; show (600000 : ℤ) > maxBidByCurrency (jsToUpper "USD") * 100; rw [hUp]; decide)
  rw [h2, rawBidAmount_c3State]
  show (splitBidAmounts 600000 (minBidByCurrency (jsToUpper "USD") * 100)
    (maxBidByCurrency (jsToUpper "USD") * 100), c3State) = _
  rw [hUp]
  decide

theorem selectTrend_snd_config (s : EngineState) (t : Trend) :
    ((selectTrend s t).2).config = s.config := by
  unfold selectTrend
  dsimp only
  split_ifs <;> rfl

theorem calculateBidAmounts_snd_config (s : EngineState) :
    ((calculateBidAmounts s).2).config = s.config := by
  unfold calculateBidAmounts stopEngine
  dsimp only
  split_ifs <;> rfl

theorem mem_mapIdxFrom {α β : Type} (g : ℕ → α → β) :
    ∀ (l : List α) (i : ℕ) (b : β), b ∈ mapIdxFrom g i l → ∃ j a, b = g j a := by
  intro l
  induction l with
  | nil =>
    intro i b hb
    exact absurd hb (List.not_mem_nil b)
  | cons a l ih =>
    intro i b hb
    rcases List.mem_cons.mp hb with hb | hb
    · exact ⟨i, a, hb⟩
    · exact ih (i + 1) b hb

theorem sendBidCore_frames_expireAt (s : EngineState) (trend : Trend) (index : ℕ)
    (nowMs : ℕ) (f : BidFrame) (hf : f ∈ (sendBidCore s trend index nowMs).2) :
    f.expireAt = codeExpireAt nowMs (intervalMinutesOf s.config) := by
  have hcfg : ((calculateBidAmounts (selectTrend s trend).2).2).config = s.config :=
    (calculateBidAmounts_snd_config _).trans (selectTrend_snd_config s trend)
  unfold sendBidCore at hf
  dsimp only at hf
  split at hf
  · exact absurd hf (List.not_mem_nil f)
  · obtain ⟨j, a, rfl⟩ := mem_mapIdxFrom _ _ _ _ hf
    show codeExpireAt nowMs (intervalMinutesOf _) = _
    rw [show ({ (calculateBidAmounts (selectTrend s trend).2).2 with
      lastBidAt := nowMs } : EngineState).config =
        ((calculateBidAmounts (selectTrend s trend).2).2).config from rfl, hcfg]

theorem sendBid_frames_cases (s : EngineState) (trend : Trend) (index : ℕ)
    (bypass : Bool) (nowMs : ℕ) :
    (sendBid s trend index bypass nowMs).2 = [] ∨
      ∃ s' : EngineState, s'.config = s.config ∧
        (sendBid s trend index bypass nowMs).2 = (sendBidCore s' trend index nowMs).2 := by
  unfold sendBid
  by_cases h1 : (!(s.status == BotStatus.running)) = true
  · rw [if_pos h1]
    left; rfl
  · rw [if_neg h1]
    by_cases h2 : intervalGuardTrips s bypass nowMs = true
    · rw [if_pos h2]
      left; rfl
    · rw [if_neg h2]
      by_cases h3 : inFlightGuard s nowMs = true
      · rw [if_pos h3]
        left; rfl
      · rw [if_neg h3]
        by_cases h4 : (!s.openedBids.isEmpty || !s.pendingUUIDs.isEmpty) = true
        · rw [if_pos h4]
          left; rfl
        · rw [if_neg h4]
          by_cases h5 : (!s.tradeReady || !s.streamReady) = true
          · rw [if_pos h5]
            left; rfl
          · rw [if_neg h5]
            by_cases h6 : (!s.tradeSocketOpen) = true
            · rw [if_pos h6]
              left; rfl
            · rw [if_neg h6]
              by_cases h7 : s.cooldownActive = true
              · rw [if_pos h7]
                dsimp only
                by_cases h8 : s.cooldownCount + 1 ≤ s.cooldownMax
                · rw [if_pos h8]
                  left; rfl
                · rw [if_neg h8]
                  right
                  refine ⟨_, ?_, rfl⟩
                  rfl
              · rw [if_neg h7]
                right
                refine ⟨_, ?_, rfl⟩
                rfl

/-- C4 (amended): every bid-create frame sendBid emits carries
expire_at = (⌊t/60s⌋ + max(1, N)) minutes (+1 when the current second
exceeds 30), seconds zeroed, in epoch seconds — i.e. N minutes past the
current minute, not aligned to N-minute interval boundaries. -/
theorem expireAt_formula (s : EngineState) (trend : Trend) (index : ℕ)
    (bypass : Bool) (nowMs : ℕ) (f : BidFrame)
    (hf : f ∈ (sendBid s trend index bypass nowMs).2) :
    f.expireAt = codeExpireAt nowMs (intervalMinutesOf s.config) := by
  rcases sendBid_frames_cases s trend index bypass nowMs with h | ⟨s', hcfg, h⟩
  · rw [h] at hf
    exact absurd hf (List.not_mem_nil f)
  · rw [h] at hf
    rw [sendBidCore_frames_expireAt s' trend index nowMs f hf, hcfg]

theorem calculateBidAmounts_in_bounds (s : EngineState)
    (hpos : 0 < rawBidAmount s)
    (hmin : ¬ rawBidAmount s < minBidByCurrency (jsToUpper s.userCurrency) * 100)
    (hmax : ¬ rawBidAmount s > maxBidByCurrency (jsToUpper s.userCurrency) * 100)
    (hbal : ¬ (0 < availableBalance s ∧ (rawBidAmount s : ℚ) > availableBalance s)) :
    calculateBidAmounts s = ([rawBidAmount s], s) := by
  unfold calculateBidAmounts
  rw [if_neg (by omega), if_neg hmin, if_neg hmax, if_neg hbal]

theorem rawBidAmount_c4 :
    rawBidAmount { c4State with lastSignalTrend := some Trend.call } = 1400000 := by
  have hUp : jsToUpper "IDR" = "IDR" := rfl
  unfold rawBidAmount getBidAmountForCurrency compoundedAmount
  norm_num [c4State, baseState, baseConfig, hUp, jsRound, MAX_K_STEP,
    show ("IDR" : String) ≠ "USD" from by decide,
    show ("IDR" : String) ≠ "EUR" from by decide]

theorem c4_frames_eval : (sendBid c4State Trend.call 0 false 430000).2 = [c4Frame] := by
  have hcalc : calculateBidAmounts { c4State with lastSignalTrend := some Trend.call } =
      ([1400000], { c4State with lastSignalTrend := some Trend.call }) := by
    rw [calculateBidAmounts_in_bounds _
      (by rw [rawBidAmount_c4]; norm_num)
      (by rw [rawBidAmount_c4]; decide)
      (by rw [rawBidAmount_c4]; decide)
      (by
        rintro ⟨h, -⟩
        rw [show availableBalance { c4State with lastSignalTrend := some Trend.call } = 0
          from rfl] at h
        exact absurd h (by norm_num)), rawBidAmount_c4]
  have hguards : sendBid c4State Trend.call 0 false 430000 =
      sendBidCore c4State Trend.call 0 430000 := rfl
  rw [hguards]
  unfold sendBidCore
  rw [show selectTrend c4State Trend.call =
    (Trend.call, { c4State with lastSignalTrend := some Trend.call }) from rfl]
  dsimp only
  rw [hcalc]
  decide

/-- Counterexample to C4 as stated: at t = 430000 ms (minute 7, second
10) with a 5-minute interval, the emitted frame's expire_at is minute
7 + 5 = 12 (720 epoch seconds), while rounding t up to the next 5-minute
boundary gives minute 10 (600 epoch seconds): expire_at is not aligned to
interval boundaries. -/
theorem expireAt_counterexample :
    (sendBid c4State Trend.call 0 false 430000).2.map BidFrame.expireAt = [720] ∧
      spec_expireAt 430000 5 = 600 ∧ (720 : ℕ) ≠ 600 := by
  refine ⟨?_, by decide, by decide⟩
  rw [c4_frames_eval]
  decide

/-- Witness for the amended C4 at the concrete fixture. -/
theorem expireAt_formula_witness :
    c4Frame ∈ (sendBid c4State Trend.call 0 false 430000).2 ∧
      c4Frame.expireAt = codeExpireAt 430000 (intervalMinutesOf c4State.config) :=
  have hmem : c4Frame ∈ (sendBid c4State Trend.call 0 false 430000).2 := by
    rw [c4_frames_eval]
    exact List.mem_singleton_self _
  ⟨hmem, expireAt_formula c4State Trend.call 0 false 430000 c4Frame hmem⟩

/-- C10: an "opened" event with a missing or empty uuid is not subject to
the pending-UUID filter — whenever its asset ric and close timestamp are
present, the bid is appended to the tracked OpenedBid list (with the size
trim); only an event carrying a non-empty uuid absent from the pending
set is ignored, leaving the state unchanged. -/
theorem opened_event_empty_uuid_tracked (s : EngineState) (item : OpenedPayload)
    (huuid : item.uuid = none ∨ item.uuid = some "")
    (hric : item.assetRic.getD (item.ric.getD "") ≠ "")
    (hclose : item.closeQuoteCreatedAt.getD (item.finishedAt.getD "") ≠ "") :
    (handleOpened s item).openedBids =
        trimOpenedBids (s.openedBids ++ [openedBidOf s item]) ∧
      ∀ (s2 : EngineState) (item2 : OpenedPayload) (u : String),
        item2.uuid = some u → u ≠ "" → u ∉ s2.pendingUUIDs →
        handleOpened s2 item2 = s2 := by
  constructor
  · have hu : item.uuid.getD "" = "" := by
      rcases huuid with h | h <;> rw [h] <;> rfl
    unfold handleOpened
    dsimp only
    rw [if_neg (by rw [hu]; simp), if_pos ⟨hric, hclose⟩]
  · intro s2 item2 u hu2 hne hnotin
    unfold handleOpened
    dsimp only
    rw [if_pos ⟨by rw [hu2]; exact hne, by rw [hu2]; exact hnotin⟩]

/-- Witness for C10 at the concrete fixture payload. -/
theorem opened_event_empty_uuid_witness :
    (handleOpened baseState c10Item).openedBids =
      trimOpenedBids (baseState.openedBids ++ [openedBidOf baseState c10Item]) :=
  (opened_event_empty_uuid_tracked baseState c10Item (Or.inl rfl) (by decide) (by decide)).1

/-- C7: whenever the deal-history fetch contains at least one deal with
status "opened", the resume computation resumes: shouldResume is true,
resumeStep is the persisted lastBidStep + 1 and the reason is
UNCLOSED_BID — open deals take priority over inspection of the most
recent closed deal. -/
theorem resume_unclosed_bid (lastBidStep : ℤ) (switchFlag : Bool)
    (deals : List DealItem) (h : ∃ d ∈ deals, d.status = some "opened") :
    (computeResumeState lastBidStep switchFlag deals).shouldResume = true ∧
      (computeResumeState lastBidStep switchFlag deals).resumeStep = lastBidStep + 1 ∧
      (computeResumeState lastBidStep switchFlag deals).reason = .unclosedBid := by
  obtain ⟨d, hd, hst⟩ := h
  have hne : deals.filter (fun x => x.status == some "opened") ≠ [] := by
    intro hnil
    have := List.filter_eq_nil_iff.mp hnil d hd
    simp [hst] at this
  unfold computeResumeState
  cases hfil : deals.filter (fun x => x.status == some "opened") with
  | nil => exact absurd hfil hne
  | cons a l => exact ⟨rfl, rfl, rfl⟩

/-- Witness for C7: persisted lastBidStep 3 and one opened deal give
resumeStep 4. -/
theorem resume_unclosed_bid_witness :
    (computeResumeState 3 false [⟨some "opened", none, none⟩]).shouldResume = true ∧
      (computeResumeState 3 false [⟨some "opened", none, none⟩]).resumeStep = 4 ∧
      (computeResumeState 3 false [⟨some "opened", none, none⟩]).reason = .unclosedBid := by
  obtain ⟨h1, h2, h3⟩ := resume_unclosed_bid 3 false [⟨some "opened", none, none⟩]
    ⟨⟨some "opened", none, none⟩, List.mem_singleton_self _, rfl⟩
  refine ⟨h1, ?_, h3⟩
  rw [h2]
  decide

end Bot
